import Mathlib

/-!
Verification of the uiucprescon-workflows plugin package.

Each Python function relevant to the claims is shallowly embedded as an
executable Lean definition, translated from the source in
src/speedwagon_uiucprescon.  External effects (file hashing, HTTP requests,
directory scanning, Python eval) are passed in as explicit parameters or
oracle values so that the control flow of the repository code itself is what
the theorems are about.
-/

/-! ## Checksum comparison strategies
    From src/speedwagon_uiucprescon/workflow_verify_checksums.py
    (CaseSensitiveComparison, CaseInsensitiveComparison). -/

/-- Models the Python builtin str.lower on a single ASCII character.  The
strings compared by these workflows are hexadecimal MD5 digests, which are
ASCII, so ASCII case mapping is the relevant behavior. -/
def pyCharLower (c : Char) : Char :=
  if 'A' ≤ c ∧ c ≤ 'Z' then Char.ofNat (c.toNat + 32) else c

/-- Models the Python builtin str.lower applied characterwise. -/
def pyLower (s : String) : String :=
  String.mk (s.data.map pyCharLower)

/-- CaseSensitiveComparison.compare: `return a == b`. -/
def caseSensitiveCompare (a b : String) : Bool :=
  a == b

/-- CaseInsensitiveComparison.compare: `return a.lower() == b.lower()`. -/
def caseInsensitiveCompare (a b : String) : Bool :=
  pyLower a == pyLower b

/-! ## Checksum validation tasks
    From src/speedwagon_uiucprescon/workflow_verify_checksums.py
    (ValidateChecksumTask.work and ChecksumTask.work).  The call to
    hathi_validate.process.calculate_md5 is an external library call; its
    return value is passed in as the parameter actual_md5. -/

structure ValidateChecksumTaskResult where
  filename : String
  path : String
  checksum_report_file : String
  valid : Bool
deriving DecidableEq, Repr

/-- ValidateChecksumTask.work: compares the computed md5 against the expected
hash with the case-sensitive strategy first, then the case-insensitive one;
records the per-item result and returns True unconditionally. -/
def validateChecksumTaskWork (file_name file_path expected_hash source_report
    actual_md5 : String) : ValidateChecksumTaskResult × Bool :=
  let is_valid : Bool :=
    if caseSensitiveCompare actual_md5 expected_hash then
      true
    else if caseInsensitiveCompare actual_md5 expected_hash then
      true
    else
      false
  (⟨file_name, file_path, source_report, is_valid⟩, true)

/-- ChecksumTask.work: identical comparison logic driven by the kwargs
mapping (filename, source_report, expected_hash, path). -/
def checksumTaskWork (filename source_report expected_hash checksum_path
    actual_md5 : String) : ValidateChecksumTaskResult × Bool :=
  let is_valid : Bool :=
    if caseSensitiveCompare actual_md5 expected_hash then
      true
    else if caseInsensitiveCompare actual_md5 expected_hash then
      true
    else
      false
  (⟨filename, checksum_path, source_report, is_valid⟩, true)

/-! ## Python exceptions raised by the code under verification
    Each constructor models one exception class used by the workflows
    (speedwagon.exceptions and the local BadNamingError / RecordNotFound), and
    Python builtin exceptions that can escape. -/

inductive PyExn where
  | missingConfiguration (workflowName key : String)
  | invalidConfiguration (msg : String)
  | jobCancelled (msg : String)
  | badNamingError (msg errName errPath : String)
  | recordNotFound (msg : String)
  | httpError
  | connectionError
  | speedwagonException (msg : String)
  | unicodeError
  | syntaxError
  | keyError (key : String)
  | valueError (msg : String)
  | runtimeError (msg : String)
deriving DecidableEq, Repr

/-- Models f-string interpolation of a caught KeyError: Python renders
KeyError("k") as the repr of its argument, i.e. the key in single quotes. -/
def pyKeyErrorStr (k : String) : String :=
  "\x27" ++ k ++ "\x27"

/-! ## MARC record retrieval
    From src/speedwagon_uiucprescon/workflow_get_marc.py.  The HTTP GET
    performed by requests.get plus raise_for_status is an external effect,
    modelled by an oracle from the request url to an outcome. -/

inductive HttpOutcome where
  | success (body : String)
  | httpError
  | connectionError
deriving DecidableEq, Repr

/-- AbsMarcFileStrategy.download_record: requests.get(url) followed by
raise_for_status, returning the body text on success. -/
def download_record (outcome : String → HttpOutcome) (url : String) :
    Except PyExn String :=
  match outcome url with
  | .success body => .ok body
  | .httpError => .error .httpError
  | .connectionError => .error .connectionError

/-- GetMarcBibId.get_record: downloads from the bib_id query url, wrapping an
HTTPError into RecordNotFound. -/
def get_marc_bib_id_get_record (outcome : String → HttpOutcome)
    (url ident : String) : Except PyExn String :=
  match download_record outcome (url ++ "/api/record?bib_id=" ++ ident) with
  | .error .httpError =>
      .error (.recordNotFound ("Unable to retrieve record with bib_id: " ++ ident))
  | r => r

/-- GetMarcMMSID.get_record: downloads from the mms_id query url, wrapping an
HTTPError into RecordNotFound. -/
def get_marc_mms_id_get_record (outcome : String → HttpOutcome)
    (url ident : String) : Except PyExn String :=
  match download_record outcome (url ++ "/api/record?mms_id=" ++ ident) with
  | .error .httpError =>
      .error (.recordNotFound ("Unable to retrieve record with mms_id: " ++ ident))
  | r => r

structure MarcGeneratorTaskReport where
  success : Bool
  identifier : String
  output : String
deriving DecidableEq, Repr

/-- Dispatch through the SUPPORTED_IDENTIFIERS dict: "MMS ID" to GetMarcMMSID
and "Bibid" to GetMarcBibId; any other key raises KeyError. -/
def supported_identifiers_get_record (outcome : String → HttpOutcome)
    (identifier_type url ident : String) : Except PyExn String :=
  if identifier_type == "MMS ID" then
    get_marc_mms_id_get_record outcome url ident
  else if identifier_type == "Bibid" then
    get_marc_bib_id_get_record outcome url ident
  else
    .error (.keyError identifier_type)

/-- MarcGeneratorTask.work: fetches the record via the strategy for the
identifier type, pretty prints and writes it (unicode_ok is the oracle for
the UnicodeError that reflow_xml or write_file may raise), and translates the
raised exceptions exactly as the except clauses in the source do. -/
def marc_generator_task_work (outcome : String → HttpOutcome)
    (unicode_ok : Bool) (identifier identifier_type output_name
    server_url : String) : Except PyExn (MarcGeneratorTaskReport × Bool) :=
  match supported_identifiers_get_record outcome identifier_type server_url
      identifier with
  | .ok _record =>
      if unicode_ok then
        .ok ({ success := true, identifier := identifier,
               output := output_name }, true)
      else
        .error (.speedwagonException ("Error with " ++ identifier))
  | .error (.recordNotFound _) =>
      .error (.jobCancelled
        ("Unable to locate record with identifier: " ++ identifier ++
         ". Make the identifier is valid and the identifier type is correct."))
  | .error .connectionError =>
      .error (.speedwagonException "Trouble connecting to server getmarc")
  | .error .httpError =>
      .error (.speedwagonException "Trouble connecting to server getmarc")
  | .error e => .error e

/-- C4 claim: a MARC fetch whose HTTP GET fails with an HTTP error status is
wrapped into RecordNotFound by GetMarcBibId.get_record and re-raised by
MarcGeneratorTask.work as JobCancelled with a human-readable message saying
the record could not be located, rather than being silently swallowed. -/
theorem marc_http_error_cancels_job (outcome : String → HttpOutcome)
    (unicode_ok : Bool) (ident output_name server_url : String)
    (h : outcome (server_url ++ "/api/record?bib_id=" ++ ident) =
      HttpOutcome.httpError) :
    get_marc_bib_id_get_record outcome server_url ident =
      .error (.recordNotFound
        ("Unable to retrieve record with bib_id: " ++ ident)) ∧
    marc_generator_task_work outcome unicode_ok ident "Bibid" output_name
        server_url =
      .error (.jobCancelled
        ("Unable to locate record with identifier: " ++ ident ++
         ". Make the identifier is valid and the identifier type is correct.")) := by
  constructor
  · simp [get_marc_bib_id_get_record, download_record, h]
  · simp [marc_generator_task_work, supported_identifiers_get_record,
      get_marc_bib_id_get_record, download_record, h]

/-- C4 witness: a concrete oracle that answers every request with an HTTP
error status produces the JobCancelled outcome. -/
theorem marc_http_error_cancels_job_witness :
    marc_generator_task_work (fun _ => HttpOutcome.httpError) true "100"
        "Bibid" "out.xml" "http://fake.com" =
      .error (.jobCancelled
        ("Unable to locate record with identifier: " ++ "100" ++
         ". Make the identifier is valid and the identifier type is correct.")) :=
  (marc_http_error_cancels_job (fun _ => HttpOutcome.httpError) true "100"
    "out.xml" "http://fake.com" rfl).2

/-! ## Package folder filtering and job discovery for MARC generation
    From GenerateMarcXMLFilesWorkflow in
    src/speedwagon_uiucprescon/workflow_get_marc.py. -/

/-- A result of os.scandir: entry name, full path, and whether the entry is a
directory. -/
structure DirEntry where
  name : String
  path : String
  is_dir : Bool
deriving DecidableEq, Repr

/-- Models the Python substring test `"v" in name` for the one-character
needle used by filter_bib_id_folders. -/
def pyContainsChar (s : String) (c : Char) : Bool :=
  s.data.contains c

/-- Models Python str.startswith. -/
def pyStartsWith (s pre : String) : Bool :=
  pre.data.isPrefixOf s.data

/-- Decimal digits to a natural number, for the int value of eval on a
digit-only string. -/
def digitsToNat (cs : List Char) : Nat :=
  cs.foldl (fun acc c => acc * 10 + (c.toNat - 48)) 0

/-- Outcome of the Python builtin eval applied to a directory name. -/
inductive PyEvalOutcome where
  | intVal (n : Int)
  | nonInt
  | nameError
  | syntaxErr
deriving DecidableEq, Repr

/-- Python keywords other than the constants True, False and None:
evaluating one as an expression is a SyntaxError. -/
def pyKeywords : List String :=
  ["and", "as", "assert", "async", "await", "break", "class", "continue",
   "def", "del", "elif", "else", "except", "finally", "for", "from",
   "global", "if", "import", "in", "is", "lambda", "nonlocal", "not", "or",
   "pass", "raise", "return", "try", "while", "with", "yield"]

/-- The identifiers bound where filter_bib_id_folders calls eval: the module
globals of workflow_get_marc (its imports, including abc at line 3, and its
top-level definitions) together with the Python builtins.  Each of them
evaluates to a module, class, function, string or compiled pattern - a
non-int value - except TYPE_CHECKING, which is the bool False and therefore
an int instance (bool subclasses int); True and False likewise evaluate to
int instances and are treated separately. -/
def marcModuleBoundNames : List String :=
  -- module globals of workflow_get_marc
  ["annotations", "abc", "functools", "os", "re", "typing", "deepcopy",
   "List", "Any", "Optional", "Union", "Sequence", "Dict", "Tuple",
   "Iterator", "Mapping", "Callable", "cast", "Final", "minidom", "ET",
   "traceback", "sys", "requests", "speedwagon", "MissingConfiguration",
   "SpeedwagonException", "JobCancelled", "reports", "validators",
   "workflow", "conditions", "MarcGeneratorTaskReport", "BadNamingError",
   "OPTION_USER_INPUT", "IDENTIFIER_TYPE", "MMSID_PATTERN", "BIBID_PATTERN",
   "RecordNotFound", "DirectoryType", "JobArgs", "UserArgs",
   "GETMARC_SERVER_URL_CONFIG", "GenerateMarcXMLFilesWorkflow",
   "AbsMarcFileStrategy", "GetMarcBibId", "GetMarcMMSID", "strip_volume",
   "SUPPORTED_IDENTIFIERS", "MarcGeneratorTask", "EnhancementTask",
   "provide_info", "MarcEnhancement035Task", "MarcEnhancement955Task"] ++
  -- Python builtins
  ["abs", "aiter", "anext", "all", "any", "ascii", "bin", "bool",
   "breakpoint", "bytearray", "bytes", "callable", "chr", "classmethod",
   "compile", "complex", "copyright", "credits", "delattr", "dict", "dir",
   "divmod", "enumerate", "eval", "exec", "exit", "filter", "float",
   "format", "frozenset", "getattr", "globals", "hasattr", "hash", "help",
   "hex", "id", "input", "int", "isinstance", "issubclass", "iter", "len",
   "license", "list", "locals", "map", "max", "memoryview", "min", "next",
   "object", "oct", "open", "ord", "pow", "print", "property", "quit",
   "range", "repr", "reversed", "round", "set", "setattr", "slice",
   "sorted", "staticmethod", "str", "sum", "super", "tuple", "type",
   "vars", "zip", "Exception", "BaseException", "BaseExceptionGroup",
   "ExceptionGroup", "ArithmeticError",
   "AssertionError", "AttributeError", "BlockingIOError", "BrokenPipeError",
   "BufferError", "BytesWarning", "ChildProcessError", "ConnectionError",
   "ConnectionAbortedError", "ConnectionRefusedError",
   "ConnectionResetError", "DeprecationWarning", "EnvironmentError",
   "EOFError", "FileExistsError", "FileNotFoundError",
   "FloatingPointError", "FutureWarning", "GeneratorExit", "ImportError",
   "ImportWarning", "IOError",
   "IndentationError", "IndexError", "InterruptedError", "IsADirectoryError",
   "KeyError", "KeyboardInterrupt", "LookupError", "MemoryError",
   "ModuleNotFoundError", "NameError", "NotADirectoryError",
   "NotImplemented", "NotImplementedError", "OSError", "OverflowError",
   "PendingDeprecationWarning",
   "PermissionError", "ProcessLookupError", "RecursionError",
   "ReferenceError", "ResourceWarning", "RuntimeError", "RuntimeWarning",
   "StopAsyncIteration", "StopIteration", "SyntaxWarning", "SystemError",
   "SystemExit",
   "TabError", "TimeoutError", "TypeError", "UnboundLocalError",
   "UnicodeDecodeError", "UnicodeEncodeError", "UnicodeError",
   "UnicodeTranslateError",
   "UnicodeWarning", "UserWarning", "ValueError", "Warning",
   "ZeroDivisionError", "Ellipsis",
   "__name__", "__doc__", "__package__", "__loader__", "__spec__",
   "__file__", "__builtins__", "__annotations__", "__all__"]

def isPyIdentChar (c : Char) : Bool :=
  c.isAlpha || c.isDigit || c == '_'

/-- A lexically valid Python identifier (ASCII form). -/
def isPyIdent (s : String) : Bool :=
  match s.data with
  | [] => false
  | c :: rest => (c.isAlpha || c == '_') && rest.all isPyIdentChar

/-- Models the Python builtin eval on directory-name strings, as invoked by
filter_bib_id_folders with the module globals of workflow_get_marc and the
builtins: a digit-only string evaluates to an int; a string of digits with a
single interior dot evaluates to a float (a non-int value); True and False
evaluate to bools, which are int instances, as does TYPE_CHECKING (bound to
False in the module); None evaluates to a non-int constant; any other
keyword used as an expression is a SyntaxError; an identifier bound in the
module globals or builtins evaluates to a module, class, function, string
or pattern - a non-int value; an identifier bound nowhere raises NameError;
anything that is not an identifier (such as a digit followed by a letter)
fails to parse and raises SyntaxError. -/
def pyEvalModel (s : String) : PyEvalOutcome :=
  let cs := s.data
  if cs ≠ [] ∧ cs.all Char.isDigit then
    .intVal (Int.ofNat (digitsToNat cs))
  else if (cs.count '.') = 1 ∧ cs ≠ [] ∧ cs.head? ≠ some '.' ∧
      cs.getLast? ≠ some '.' ∧ cs.all (fun c => c.isDigit ∨ c = '.') then
    .nonInt
  else if s = "True" then
    .intVal 1
  else if s = "False" ∨ s = "TYPE_CHECKING" then
    .intVal 0
  else if s = "None" then
    .nonInt
  else if isPyIdent s then
    if s ∈ pyKeywords then
      .syntaxErr
    else if s ∈ marcModuleBoundNames then
      .nonInt
    else
      .nameError
  else
    .syntaxErr

/-- GenerateMarcXMLFilesWorkflow.filter_bib_id_folders: non-directories are
rejected; names containing the letter v are accepted with no further checks;
otherwise a leading zero raises BadNamingError, and the name is passed to
eval, where an int result accepts, a non-int result rejects, a NameError is
re-raised as BadNamingError, and any other eval failure propagates. -/
def filter_bib_id_folders (evalFn : String → PyEvalOutcome)
    (item : DirEntry) : Except PyExn Bool :=
  if !item.is_dir then
    .ok false
  else if !(pyContainsChar item.name 'v') then
    if pyStartsWith item.name "0" then
      .error (.badNamingError
        ("Directory naming is an invalid format. Contains leading zero: " ++
          item.name)
        item.name item.path)
    else
      match evalFn item.name with
      | .intVal _ => .ok true
      | .nonInt => .ok false
      | .nameError =>
          .error (.badNamingError
            ("Directory naming is an invalid format. " ++ item.name)
            item.name item.path)
      | .syntaxErr => .error .syntaxError
  else
    .ok true

/-- The lazily filtered iteration over the scandir results inside the list
comprehension of discover_task_metadata: entries are tested in order and the
first exception aborts. -/
def marcFilterEntries (evalFn : String → PyEvalOutcome) :
    List DirEntry → Except PyExn (List DirEntry)
  | [] => .ok []
  | e :: rest =>
      match filter_bib_id_folders evalFn e with
      | .error ex => .error ex
      | .ok true => (marcFilterEntries evalFn rest).map (e :: ·)
      | .ok false => marcFilterEntries evalFn rest

structure MarcJobArgs where
  dir_value : String
  dir_type : String
  e955 : Bool
  e035 : Bool
  api_server : String
  path : String
deriving DecidableEq, Repr

/-- The config key GETMARC_SERVER_URL_CONFIG. -/
def GETMARC_SERVER_URL_CONFIG : String := "Getmarc server url"

/-- GenerateMarcXMLFilesWorkflow.discover_task_metadata: a missing server url
raises MissingConfiguration before anything else; the scandir entries are
filtered by filter_bib_id_folders into job dictionaries, a BadNamingError
becoming JobCancelled naming the offending path; an empty job list raises
JobCancelled reporting that no package directories were located. -/
def generate_marc_discover_task_metadata (server_url : Option String)
    (evalFn : String → PyEvalOutcome) (search_path : String)
    (entries : List DirEntry) (identifier_type : String)
    (add955 add035 : Bool) : Except PyExn (List MarcJobArgs) :=
  match server_url with
  | none =>
      .error (.missingConfiguration "Generate MARC.XML Files"
        GETMARC_SERVER_URL_CONFIG)
  | some url =>
      match marcFilterEntries evalFn entries with
      | .error (.badNamingError _ _ errPath) =>
          .error (.jobCancelled
            ("Unable to locate marc record due to invalid naming convention. "
              ++ errPath))
      | .error ex => .error ex
      | .ok kept =>
          let jobs := kept.map (fun folder =>
            { dir_value := folder.name, dir_type := identifier_type,
              e955 := add955, e035 := add035, api_server := url,
              path := folder.path : MarcJobArgs })
          if jobs.isEmpty then
            .error (.jobCancelled
              ("No directories containing packages located inside of " ++
                search_path))
          else
            .ok jobs

/-! ## OCR workflow
    From src/speedwagon_uiucprescon/workflow_ocr.py.  Filesystem existence
    and the language code table of the external ocr library are parameters. -/

def SUPPORTED_IMAGE_TYPES : List (String × String) :=
  [("JPEG 2000", ".jp2"), ("TIFF", ".tif")]

/-- OCRWorkflow.get_file_extension: the SUPPORTED_IMAGE_TYPES dict lookup,
raising KeyError for an unknown file type. -/
def ocr_get_file_extension (file_type : String) : Except PyExn String :=
  match SUPPORTED_IMAGE_TYPES.lookup file_type with
  | some ext => .ok ext
  | none => .error (.keyError file_type)

/-- OCRWorkflow.initial_task: resolves the image file extension, converting a
KeyError into JobCancelled, and on success schedules a FindImagesTask for the
root with that extension (modelled as the root and extension pair). -/
def ocr_initial_task (root file_type : String) :
    Except PyExn (String × String) :=
  match ocr_get_file_extension file_type with
  | .ok ext => .ok (root, ext)
  | .error (.keyError k) =>
      .error (.jobCancelled ("Invalid Image Type: " ++ pyKeyErrorStr k))
  | .error e => .error e

structure OcrJobArgs where
  source_file_path : String
  destination_path : String
  output_file_name : String
  lang_code : String
deriving DecidableEq, Repr

/-- Models os.path.dirname for forward-slash paths:  everything before the
final slash, or the empty string when there is none. -/
def pyDirname (s : String) : String :=
  match (s.data.reverse.dropWhile (· ≠ '/')) with
  | [] => ""
  | _ :: rest => String.mk rest.reverse

/-- Models os.path.basename for forward-slash paths. -/
def pyBasename (s : String) : String :=
  String.mk (s.data.reverse.takeWhile (· ≠ '/')).reverse

/-- Models os.path.splitext applied to a basename, returning the stem: the
part before the final dot, except that a name with no dot, or only a leading
dot, is returned whole. -/
def pySplitextStem (s : String) : String :=
  let cs := s.data
  let afterDot := cs.reverse.takeWhile (· ≠ '.')
  if afterDot.length = cs.length then
    s
  else if cs.length - afterDot.length ≤ 1 then
    s
  else
    String.mk (cs.take (cs.length - afterDot.length - 1))

/-- OCRWorkflow.discover_task_metadata: a missing tesseract data path raises
InvalidConfiguration before any task metadata is built, as does a configured
path that does not exist; otherwise each located image file is matched with
the language code whose table value equals the chosen language (ValueError
if none) and turned into one OCR job record.  The per-file loop, first error
aborting: -/
def ocrBuildTasks (language_codes : List (String × String))
    (language : String) : List String → Except PyExn (List OcrJobArgs)
  | [] => .ok []
  | image_file :: rest =>
      match language_codes.find? (fun kv => kv.2 == language) with
      | none =>
          .error (.valueError
            ("Unable to look up language code for " ++ language))
      | some kv =>
          (ocrBuildTasks language_codes language rest).map
            (fun tasks =>
              { source_file_path := image_file,
                destination_path := pyDirname image_file,
                output_file_name :=
                  pySplitextStem (pyBasename image_file) ++ ".txt",
                lang_code := kv.1 : OcrJobArgs } :: tasks)

/-- OCRWorkflow.discover_task_metadata: checks the tesseract configuration
first and then builds the per-file task list via ocrBuildTasks. -/
def ocr_discover_task_metadata (tessdata_path : Option String)
    (pathExists : String → Bool) (language_codes : List (String × String))
    (language : String) (image_files : List String) :
    Except PyExn (List OcrJobArgs) :=
  match tessdata_path with
  | none => .error (.invalidConfiguration "Tesseract data file location not set")
  | some p =>
      if !(pathExists p) then
        .error (.invalidConfiguration
          ("Tesseract data file location \x22" ++ p ++
            "\x22 does not exist"))
      else
        ocrBuildTasks language_codes language image_files

/-- C5 claim: when the required configuration value is absent (the Getmarc
server url for GenerateMarcXMLFilesWorkflow, the tesseract data path for
OCRWorkflow), discover_task_metadata raises the distinct
missing-configuration exception immediately, so no per-item job metadata is
produced. -/
theorem missing_configuration_aborts_discovery :
    (∀ (evalFn : String → PyEvalOutcome) (search_path : String)
        (entries : List DirEntry) (identifier_type : String)
        (add955 add035 : Bool),
      generate_marc_discover_task_metadata none evalFn search_path entries
          identifier_type add955 add035 =
        .error (.missingConfiguration "Generate MARC.XML Files"
          GETMARC_SERVER_URL_CONFIG)) ∧
    (∀ (pathExists : String → Bool)
        (language_codes : List (String × String)) (language : String)
        (image_files : List String),
      ocr_discover_task_metadata none pathExists language_codes language
          image_files =
        .error (.invalidConfiguration "Tesseract data file location not set")) :=
  ⟨fun _ _ _ _ _ _ => rfl, fun _ _ _ _ => rfl⟩

/-- C10 claim: filter_bib_id_folders answers True for every directory whose
name contains the character v, for any behavior of eval, so the leading-zero
and numeric-name validations are skipped for such names and apply only to
directory names without v. -/
theorem filter_bib_id_folders_v_bypass :
    (∀ (evalFn : String → PyEvalOutcome) (item : DirEntry),
      item.is_dir = true → pyContainsChar item.name 'v' = true →
      filter_bib_id_folders evalFn item = .ok true) ∧
    (∀ (evalFn : String → PyEvalOutcome) (item : DirEntry),
      item.is_dir = true → filter_bib_id_folders evalFn item ≠ .ok true →
      pyContainsChar item.name 'v' = false) := by
  constructor
  · intro evalFn item hdir hv
    simp [filter_bib_id_folders, hdir, hv]
  · intro evalFn item hdir hne
    by_contra h
    exact hne (by simp [filter_bib_id_folders, hdir,
      (Bool.not_eq_false _).mp h])

/-- C10 witness: a directory named 0v1 has a leading zero and a non-numeric
name, yet is accepted because the name contains v. -/
theorem filter_bib_id_folders_v_bypass_witness :
    filter_bib_id_folders pyEvalModel
      { name := "0v1", path := "in/0v1", is_dir := true } = .ok true :=
  filter_bib_id_folders_v_bypass.1 pyEvalModel
    { name := "0v1", path := "in/0v1", is_dir := true } rfl (by decide)

/-- C6 counterexample: the directory name 1a is non-numeric and contains no
v, yet discover_task_metadata does not raise JobCancelled for it: eval fails
with a SyntaxError, which is not caught anywhere, so the uncaught
SyntaxError escapes instead of a JobCancelled naming the offending path. -/
theorem bad_naming_counterexample :
    generate_marc_discover_task_metadata (some "http://fake.com") pyEvalModel
        "in" [{ name := "1a", path := "in/1a", is_dir := true }] "Bibid"
        true true =
      .error .syntaxError := by
  rfl

/-- C6 amended claim: input validation errors surface as JobCancelled with a
human-readable reason in these cases: a package directory without v in its
name that has a leading zero, or whose name eval rejects with NameError (an
identifier bound neither in the module globals of workflow_get_marc nor in
the builtins, such as zzxyqq), raises BadNamingError which
discover_task_metadata converts to JobCancelled naming the offending path; a
directory whose name evaluates to a non-integer value (a float-like literal
such as 1.5, or an identifier bound to a module, class or function, such as
abc, which the module imports) is silently excluded rather than reported; a
scan that yields no package directories raises JobCancelled saying no
directories were located; and OCRWorkflow.initial_task raises JobCancelled
for an unsupported image file type.  (A name that eval rejects with
SyntaxError escapes as an uncaught SyntaxError.) -/
theorem input_validation_job_cancelled
    (url : String) (evalFn : String → PyEvalOutcome) (search_path : String)
    (e : DirEntry) (rest : List DirEntry) (identifier_type : String)
    (add955 add035 : Bool) (root file_type : String) :
    (e.is_dir = true → pyContainsChar e.name 'v' = false →
      pyStartsWith e.name "0" = true →
      generate_marc_discover_task_metadata (some url) evalFn search_path
          (e :: rest) identifier_type add955 add035 =
        .error (.jobCancelled
          ("Unable to locate marc record due to invalid naming convention. "
            ++ e.path))) ∧
    (e.is_dir = true → pyContainsChar e.name 'v' = false →
      pyStartsWith e.name "0" = false → evalFn e.name = .nameError →
      generate_marc_discover_task_metadata (some url) evalFn search_path
          (e :: rest) identifier_type add955 add035 =
        .error (.jobCancelled
          ("Unable to locate marc record due to invalid naming convention. "
            ++ e.path))) ∧
    (e.is_dir = true → pyContainsChar e.name 'v' = false →
      pyStartsWith e.name "0" = false → evalFn e.name = .nonInt →
      generate_marc_discover_task_metadata (some url) evalFn search_path
          (e :: rest) identifier_type add955 add035 =
        generate_marc_discover_task_metadata (some url) evalFn search_path
          rest identifier_type add955 add035) ∧
    (generate_marc_discover_task_metadata (some url) evalFn search_path []
        identifier_type add955 add035 =
      .error (.jobCancelled
        ("No directories containing packages located inside of " ++
          search_path))) ∧
    (SUPPORTED_IMAGE_TYPES.lookup file_type = none →
      ocr_initial_task root file_type =
        .error (.jobCancelled
          ("Invalid Image Type: " ++ pyKeyErrorStr file_type))) := by
  refine ⟨?_, ?_, ?_, rfl, ?_⟩
  · intro hdir hv hz
    simp [generate_marc_discover_task_metadata, marcFilterEntries,
      filter_bib_id_folders, hdir, hv, hz]
  · intro hdir hv hz heval
    simp [generate_marc_discover_task_metadata, marcFilterEntries,
      filter_bib_id_folders, hdir, hv, hz, heval]
  · intro hdir hv hz heval
    simp [generate_marc_discover_task_metadata, marcFilterEntries,
      filter_bib_id_folders, hdir, hv, hz, heval]
  · intro hlookup
    simp [ocr_initial_task, ocr_get_file_extension, hlookup]

/-- C6 witness: concrete inputs exercise each amended case: a leading-zero
name, an unbound identifier name (zzxyqq), a float-like name that is
silently skipped, a name bound to a module (abc, imported by the workflow
module) that is likewise silently skipped rather than reported, an empty
scan, and an unsupported OCR image type. -/
theorem input_validation_job_cancelled_witness :
    (generate_marc_discover_task_metadata (some "u") pyEvalModel "in"
        [{ name := "012", path := "in/012", is_dir := true }] "Bibid" true
        true =
      .error (.jobCancelled
        ("Unable to locate marc record due to invalid naming convention. "
          ++ "in/012"))) ∧
    (generate_marc_discover_task_metadata (some "u") pyEvalModel "in"
        [{ name := "zzxyqq", path := "in/zzxyqq", is_dir := true }] "Bibid"
        true true =
      .error (.jobCancelled
        ("Unable to locate marc record due to invalid naming convention. "
          ++ "in/zzxyqq"))) ∧
    (generate_marc_discover_task_metadata (some "u") pyEvalModel "in"
        [{ name := "1.5", path := "in/1.5", is_dir := true }] "Bibid" true
        true =
      generate_marc_discover_task_metadata (some "u") pyEvalModel "in" []
        "Bibid" true true) ∧
    (generate_marc_discover_task_metadata (some "u") pyEvalModel "in"
        [{ name := "abc", path := "in/abc", is_dir := true }] "Bibid" true
        true =
      generate_marc_discover_task_metadata (some "u") pyEvalModel "in" []
        "Bibid" true true) ∧
    (ocr_initial_task "in" "PNG" =
      .error (.jobCancelled ("Invalid Image Type: " ++ pyKeyErrorStr "PNG"))) := by
  refine ⟨?_, ?_, ?_, ?_, ?_⟩
  · exact (input_validation_job_cancelled "u" pyEvalModel "in"
      { name := "012", path := "in/012", is_dir := true } [] "Bibid" true
      true "in" "PNG").1 rfl (by decide) (by decide)
  · exact (input_validation_job_cancelled "u" pyEvalModel "in"
      { name := "zzxyqq", path := "in/zzxyqq", is_dir := true } [] "Bibid"
      true true "in" "PNG").2.1 rfl (by decide) (by decide) (by decide)
  · exact (input_validation_job_cancelled "u" pyEvalModel "in"
      { name := "1.5", path := "in/1.5", is_dir := true } [] "Bibid" true
      true "in" "PNG").2.2.1 rfl (by decide) (by decide) (by decide)
  · exact (input_validation_job_cancelled "u" pyEvalModel "in"
      { name := "abc", path := "in/abc", is_dir := true } [] "Bibid" true
      true "in" "PNG").2.2.1 rfl (by decide) (by decide) (by decide)
  · exact (input_validation_job_cancelled "u" pyEvalModel "in"
      { name := "1.5", path := "in/1.5", is_dir := true } [] "Bibid" true
      true "in" "PNG").2.2.2.2 (by decide)

/-! ## Post-order removal ordering for Medusa preingest
    From src/speedwagon_uiucprescon/workflow_medusa_preingest.py.  A
    filesystem directory tree is a nested inductive; paths are lists of
    name components, the Lean counterpart of normalized pathlib paths. -/

inductive FSEntry where
  | file (name : String)
  | dir (name : String) (children : List FSEntry)

def entryName : FSEntry → String
  | .file n => n
  | .dir n _ => n

/-- The paths of the plain files among the children, in iteration order:
the list the source accumulates in its files variable. -/
def filesOf (p : List String) (cs : List FSEntry) : List (List String) :=
  cs.filterMap (fun c =>
    match c with
    | .file n => some (p ++ [n])
    | .dir _ _ => none)

mutual

/-- The body of get_contents_of_folder_for_removal for a directory at path p
with children cs: subdirectories are expanded in place during iteration,
collected plain files come next, and the directory itself is yielded last. -/
def removalDir (p : List String) (cs : List FSEntry) : List (List String) :=
  removalChildren p cs ++ filesOf p cs ++ [p]

/-- The iteration over root.iterdir(): each directory child is fully expanded
where it is encountered, file children contribute nothing here (they are
gathered by filesOf). -/
def removalChildren (p : List String) : List FSEntry → List (List String)
  | [] => []
  | .file _ :: rest => removalChildren p rest
  | .dir n cs :: rest => removalDir (p ++ [n]) cs ++ removalChildren p rest

end

/-- get_contents_of_folder_for_removal: on a directory, the post-order
enumeration; on a plain file, root.iterdir() raises NotADirectoryError,
modelled as none. -/
def get_contents_of_folder_for_removal (p : List String) :
    FSEntry → Option (List (List String))
  | .file _ => none
  | .dir _ cs => some (removalDir p cs)

/-- Pairwise distinctness of a name list. -/
def distinctNames : List String → Bool
  | [] => true
  | n :: rest => (!rest.contains n) && distinctNames rest

mutual

/-- A real directory tree has pairwise distinct sibling names at every
level: os.scandir and Path.iterdir can never report two entries of one
directory under the same name. -/
def wfEntry : FSEntry → Bool
  | .file _ => true
  | .dir _ cs => distinctNames (cs.map entryName) && wfList cs

def wfList : List FSEntry → Bool
  | [] => true
  | c :: rest => wfEntry c && wfList rest

end

/-- A prefix whose length is at least that of the longer list is the whole
list. -/
theorem prefix_eq_of_le_length {α : Type} {a b : List α} (h : a <+: b)
    (hl : b.length ≤ a.length) : a = b := by
  obtain ⟨t, rfl⟩ := h
  have ht : t.length = 0 := by
    simp only [List.length_append] at hl
    omega
  simp [List.eq_nil_of_length_eq_zero ht]

theorem contains_of_mem {l : List String} {a : String} (h : a ∈ l) :
    l.contains a = true := by
  simp only [List.contains_iff_exists_mem_beq]
  exact ⟨a, h, by simp⟩

/-- Every path in filesOf is a direct file child of the directory at p. -/
theorem mem_filesOf {p : List String} {cs : List FSEntry} {q : List String}
    (h : q ∈ filesOf p cs) : ∃ n, FSEntry.file n ∈ cs ∧ q = p ++ [n] := by
  rcases List.mem_filterMap.mp h with ⟨c, hc, hq⟩
  cases c with
  | file n => exact ⟨n, hc, (Option.some.inj hq).symm⟩
  | dir n cs' => simp at hq

mutual

/-- Every path yielded for the directory at p extends p. -/
theorem mem_removalDir {q : List String} (p : List String)
    (cs : List FSEntry) (h : q ∈ removalDir p cs) : p <+: q := by
  rw [removalDir] at h
  rcases List.mem_append.mp h with h12 | h3
  · rcases List.mem_append.mp h12 with h1 | h2
    · obtain ⟨n, cs', _, hp⟩ := mem_removalChildren p cs h1
      exact (List.prefix_append p [n]).trans hp
    · obtain ⟨n, _, rfl⟩ := mem_filesOf h2
      exact List.prefix_append p [n]
  · rw [List.mem_singleton.mp h3]

/-- Every path yielded while iterating the children comes from some
directory child, whose path it extends. -/
theorem mem_removalChildren {q : List String} (p : List String)
    (cs : List FSEntry) (h : q ∈ removalChildren p cs) :
    ∃ n cs', FSEntry.dir n cs' ∈ cs ∧ (p ++ [n]) <+: q := by
  cases cs with
  | nil => rw [removalChildren] at h; cases h
  | cons c rest =>
    cases c with
    | file m =>
      rw [removalChildren] at h
      obtain ⟨n, cs', hmem, hp⟩ := mem_removalChildren p rest h
      exact ⟨n, cs', List.mem_cons_of_mem _ hmem, hp⟩
    | dir n cs' =>
      rw [removalChildren] at h
      rcases List.mem_append.mp h with h1 | h2
      · exact ⟨n, cs', List.mem_cons_self _ _, mem_removalDir (p ++ [n]) cs' h1⟩
      · obtain ⟨m, cs'', hmem, hp⟩ := mem_removalChildren p rest h2
        exact ⟨m, cs'', List.mem_cons_of_mem _ hmem, hp⟩

end

/-- The deletion-safety relation between an earlier and a later emitted path:
the earlier one is never a proper ancestor (proper prefix) of the later
one, so by the time a directory is deleted everything below it is gone. -/
def noAncestorBefore (a b : List String) : Prop :=
  ¬(a <+: b ∧ a ≠ b)

/-- Any path reached through a directory child is strictly longer than p. -/
theorem length_lt_of_mem_removalChildren {q : List String} {p : List String}
    {cs : List FSEntry} (h : q ∈ removalChildren p cs) :
    p.length < q.length := by
  obtain ⟨n, cs', _, hp⟩ := mem_removalChildren p cs h
  have := hp.length_le
  simp only [List.length_append, List.length_singleton] at this
  omega

mutual

/-- The enumeration of a well-formed directory never emits a proper
ancestor before one of its descendants. -/
theorem removalDir_ordered (p : List String) (cs : List FSEntry)
    (h1 : distinctNames (cs.map entryName) = true)
    (h2 : wfList cs = true) :
    (removalDir p cs).Pairwise noAncestorBefore := by
  rw [removalDir]
  apply List.pairwise_append.mpr
  refine ⟨?_, ?_, ?_⟩
  · apply List.pairwise_append.mpr
    refine ⟨removalChildren_ordered p cs h1 h2, ?_, ?_⟩
    · apply List.pairwise_iff_forall_sublist.mpr
      intro a b hsub
      have ha := hsub.subset (List.mem_cons_self a [b])
      have hb := hsub.subset (List.mem_cons_of_mem a (List.mem_singleton.mpr rfl))
      obtain ⟨n, _, rfl⟩ := mem_filesOf ha
      obtain ⟨m, _, rfl⟩ := mem_filesOf hb
      rintro ⟨hab, hne⟩
      exact hne (prefix_eq_of_le_length hab (by simp))
    · intro a ha b hb
      have hla : p.length < a.length := length_lt_of_mem_removalChildren ha
      obtain ⟨m, _, rfl⟩ := mem_filesOf hb
      rintro ⟨hab, hne⟩
      have := prefix_eq_of_le_length hab
        (by simp only [List.length_append, List.length_singleton]; omega)
      exact hne this
  · exact List.pairwise_singleton _ _
  · intro a ha b hb
    rw [List.mem_singleton.mp hb]
    have hla : p.length < a.length := by
      rcases List.mem_append.mp ha with h1 | h2
      · exact length_lt_of_mem_removalChildren h1
      · obtain ⟨m, _, rfl⟩ := mem_filesOf h2
        simp
    rintro ⟨hab, _⟩
    have := hab.length_le
    omega

/-- The iteration over the children of a well-formed directory never emits a
proper ancestor before one of its descendants. -/
theorem removalChildren_ordered (p : List String) (cs : List FSEntry)
    (h1 : distinctNames (cs.map entryName) = true)
    (h2 : wfList cs = true) :
    (removalChildren p cs).Pairwise noAncestorBefore := by
  cases cs with
  | nil => rw [removalChildren]; exact List.Pairwise.nil
  | cons c rest =>
    cases c with
    | file m =>
      rw [removalChildren]
      have h1' : distinctNames (rest.map entryName) = true := by
        simp only [List.map_cons, distinctNames, Bool.and_eq_true] at h1
        exact h1.2
      have h2' : wfList rest = true := by
        rw [wfList, Bool.and_eq_true] at h2
        exact h2.2
      exact removalChildren_ordered p rest h1' h2'
    | dir n cs' =>
      rw [removalChildren]
      have hmaps : (FSEntry.dir n cs' :: rest).map entryName =
          n :: rest.map entryName := by simp [entryName]
      rw [hmaps] at h1
      simp only [distinctNames, Bool.and_eq_true, Bool.not_eq_true'] at h1
      have hn_not : (rest.map entryName).contains n = false := h1.1
      have h1' : distinctNames (rest.map entryName) = true := h1.2
      rw [wfList, Bool.and_eq_true] at h2
      have hwfdir := h2.1
      have h2' : wfList rest = true := h2.2
      rw [wfEntry, Bool.and_eq_true] at hwfdir
      apply List.pairwise_append.mpr
      refine ⟨removalDir_ordered (p ++ [n]) cs' hwfdir.1 hwfdir.2,
        removalChildren_ordered p rest h1' h2', ?_⟩
      intro a ha b hb
      have hpa : (p ++ [n]) <+: a := mem_removalDir (p ++ [n]) cs' ha
      obtain ⟨m, cs'', hmem, hpb⟩ := mem_removalChildren p rest hb
      rintro ⟨hab, _⟩
      have hnb : (p ++ [n]) <+: b := hpa.trans hab
      have hnm : (p ++ [n]) <+: (p ++ [m]) :=
        List.prefix_of_prefix_length_le hnb hpb (by simp)
      have heq : (p ++ [n]) = (p ++ [m]) :=
        prefix_eq_of_le_length hnm (by simp)
      have : n = m := by
        have := List.append_cancel_left heq
        simpa using this
      subst this
      have : n ∈ rest.map entryName :=
        List.mem_map.mpr ⟨FSEntry.dir n cs'', hmem, rfl⟩
      rw [contains_of_mem this] at hn_not
      cases hn_not

end

/-- C1 claim: for every directory tree rooted at root, the sequence
produced by get_contents_of_folder_for_removal places every path originally
inside a directory earlier in the sequence than the directory itself:
children, recursively, precede their parent, with the plain files of a
directory emitted after all of its subdirectories are fully expanded, so no
emitted path is a proper prefix of any later emitted path. -/
theorem get_contents_of_folder_for_removal_postorder (p : List String)
    (root : FSEntry) (L : List (List String)) (hwf : wfEntry root = true)
    (h : get_contents_of_folder_for_removal p root = some L) :
    L.Pairwise noAncestorBefore := by
  cases root with
  | file n => cases h
  | dir n cs =>
    have hL : L = removalDir p cs := by
      rw [get_contents_of_folder_for_removal] at h
      exact (Option.some.inj h).symm
    rw [wfEntry, Bool.and_eq_true] at hwf
    rw [hL]
    exact removalDir_ordered p cs hwf.1 hwf.2

/-- C1 witness: a concrete two-level tree with nested directories and plain
files satisfies the ordering property. -/
theorem get_contents_of_folder_for_removal_postorder_witness :
    (removalDir ["root"]
      [FSEntry.dir "a" [FSEntry.file "f1",
         FSEntry.dir "b" [FSEntry.file "f2"]],
       FSEntry.file "g"]).Pairwise noAncestorBefore :=
  get_contents_of_folder_for_removal_postorder ["root"]
    (FSEntry.dir "root"
      [FSEntry.dir "a" [FSEntry.file "f1",
         FSEntry.dir "b" [FSEntry.file "f2"]],
       FSEntry.file "g"])
    (removalDir ["root"]
      [FSEntry.dir "a" [FSEntry.file "f1",
         FSEntry.dir "b" [FSEntry.file "f2"]],
       FSEntry.file "g"])
    (by simp [wfEntry, wfList, distinctNames, entryName])
    rfl

/-! ## Medusa preingest task discovery
    MedusaPreingestCuration.discover_task_metadata from
    src/speedwagon_uiucprescon/workflow_medusa_preingest.py.  The filesystem
    the paths are resolved against is a forest of FSEntry trees; os.path.isdir,
    os.path.isfile and Path.is_dir/is_file become resolution in that forest. -/

structure TaskArgs where
  type : String
  path : List String
deriving DecidableEq, Repr

/-- Resolve a path (list of name components) against a forest. -/
def resolveForest (cs : List FSEntry) : List String → Option FSEntry
  | [] => none
  | n :: rest =>
      match cs.find? (fun c => entryName c == n) with
      | none => none
      | some c =>
          match rest with
          | [] => some c
          | _ :: _ =>
              match c with
              | .file _ => none
              | .dir _ cs' => resolveForest cs' rest

/-- MedusaPreingestCuration._build_task: a directory path becomes a
directory-typed record, a file path a file-typed record; anything else
raises RuntimeError. -/
def build_task (fs : List FSEntry) (p : List String) : Except PyExn TaskArgs :=
  match resolveForest fs p with
  | some (.dir _ _) => .ok ⟨"directory", p⟩
  | some (.file _) => .ok ⟨"file", p⟩
  | none => .error (.runtimeError "not sure what to do")

/-- The running state of discover_task_metadata: the accumulated new_tasks
list and the to_remove set (modelled as a list queried by contains). -/
structure DState where
  new_tasks : List TaskArgs
  to_remove : List (List String)

/-- The inner loop over get_contents_of_folder_for_removal(item): a child
already in to_remove is skipped, otherwise its task is appended and the
child is recorded in to_remove. -/
def processChildren (fs : List FSEntry) :
    List (List String) → DState → Except PyExn DState
  | [], st => .ok st
  | c :: rest, st =>
      if st.to_remove.contains c then
        processChildren fs rest st
      else
        match build_task fs c with
        | .error e => .error e
        | .ok t => processChildren fs rest ⟨st.new_tasks ++ [t], c :: st.to_remove⟩

/-- The body of the outer loop of discover_task_metadata for one item. -/
def discover_step (fs : List FSEntry) (st : DState) (item : List String) :
    Except PyExn DState :=
  if st.to_remove.contains item then
    .ok st
  else
    match resolveForest fs item with
    | some (.dir _ cs) =>
        match processChildren fs (removalDir item cs) st with
        | .error e => .error e
        | .ok st' => .ok ⟨st'.new_tasks, item :: st'.to_remove⟩
    | some (.file _) =>
        .ok ⟨st.new_tasks ++ [⟨"file", item⟩], item :: st.to_remove⟩
    | none => .ok ⟨st.new_tasks, item :: st.to_remove⟩

def discoverLoop (fs : List FSEntry) :
    List (List String) → DState → Except PyExn DState
  | [], st => .ok st
  | it :: rest, st =>
      match discover_step fs st it with
      | .error e => .error e
      | .ok st' => discoverLoop fs rest st'

/-- MedusaPreingestCuration.discover_task_metadata: folds the items of the
to-remove key through the loop body starting from empty accumulators and
returns the collected new_tasks. -/
def medusa_discover_task_metadata (fs : List FSEntry)
    (items : List (List String)) : Except PyExn (List TaskArgs) :=
  match discoverLoop fs items ⟨[], []⟩ with
  | .error e => .error e
  | .ok st => .ok st.new_tasks

/-- The loop invariant: emitted task paths are pairwise distinct and every
emitted path is already recorded in to_remove. -/
def DInv (st : DState) : Prop :=
  (st.new_tasks.map TaskArgs.path).Nodup ∧
  ∀ t ∈ st.new_tasks, st.to_remove.contains t.path = true

theorem build_task_path {fs : List FSEntry} {p : List String} {t : TaskArgs}
    (h : build_task fs p = .ok t) : t.path = p := by
  unfold build_task at h
  rcases hr : resolveForest fs p with _ | c
  · rw [hr] at h; cases h
  · rw [hr] at h
    cases c with
    | file n => exact congrArg TaskArgs.path (Except.ok.inj h).symm
    | dir n cs => exact congrArg TaskArgs.path (Except.ok.inj h).symm

theorem contains_of_mem_paths {l : List (List String)} {a : List String}
    (h : a ∈ l) : l.contains a = true := by
  simp only [List.contains_iff_exists_mem_beq]
  exact ⟨a, h, by simp⟩

theorem mem_of_contains_paths {l : List (List String)} {a : List String}
    (h : l.contains a = true) : a ∈ l := by
  rcases List.contains_iff_exists_mem_beq.mp h with ⟨b, hb, hab⟩
  exact (eq_of_beq hab) ▸ hb

theorem contains_cons_of_contains {l : List (List String)}
    {a c : List String} (h : l.contains a = true) :
    (c :: l).contains a = true :=
  contains_of_mem_paths (List.mem_cons_of_mem c (mem_of_contains_paths h))

theorem contains_cons_self {l : List (List String)} {c : List String} :
    (c :: l).contains c = true :=
  contains_of_mem_paths (List.mem_cons_self c l)

/-- Appending one freshly built task for a path not yet in to_remove, while
recording the path, preserves the invariant. -/
theorem DInv_snoc {st : DState} {t : TaskArgs} {c : List String}
    (hinv : DInv st) (htp : t.path = c)
    (hc : st.to_remove.contains c = false) :
    DInv ⟨st.new_tasks ++ [t], c :: st.to_remove⟩ := by
  have hcnotin : c ∉ st.new_tasks.map TaskArgs.path := by
    intro hmem
    rcases List.mem_map.mp hmem with ⟨t', ht', hpt'⟩
    have h1 := hinv.2 t' ht'
    rw [hpt'] at h1
    rw [h1] at hc
    cases hc
  constructor
  · simp only [List.map_append, List.map_cons, List.map_nil]
    rw [List.nodup_append]
    refine ⟨hinv.1, List.nodup_singleton _, ?_⟩
    intro a ha hb
    rw [List.mem_singleton.mp hb, htp] at ha
    exact hcnotin ha
  · intro t' ht'
    rcases List.mem_append.mp ht' with h1 | h2
    · exact contains_cons_of_contains (hinv.2 t' h1)
    · rw [List.mem_singleton.mp h2, htp]
      exact contains_cons_self

theorem processChildren_inv {fs : List FSEntry} :
    ∀ (l : List (List String)) (st st' : DState), DInv st →
    processChildren fs l st = .ok st' →
    DInv st' ∧ ∀ p, st.to_remove.contains p = true →
      st'.to_remove.contains p = true := by
  intro l
  induction l with
  | nil =>
    intro st st' hinv h
    rw [processChildren] at h
    cases h
    exact ⟨hinv, fun _ hc => hc⟩
  | cons c rest ih =>
    intro st st' hinv h
    rw [processChildren] at h
    split at h
    · exact ih st st' hinv h
    · next hc =>
      split at h
      · cases h
      · next t hb =>
        have hcf : st.to_remove.contains c = false := by
          cases hcv : st.to_remove.contains c with
          | false => rfl
          | true => exact absurd hcv hc
        have hinv2 := DInv_snoc hinv (build_task_path hb) hcf
        have hres := ih _ st' hinv2 h
        exact ⟨hres.1, fun p hp => hres.2 p (contains_cons_of_contains hp)⟩

theorem discover_step_inv {fs : List FSEntry} {st st' : DState}
    {item : List String} (hinv : DInv st)
    (h : discover_step fs st item = .ok st') : DInv st' := by
  unfold discover_step at h
  split at h
  · cases h
    exact hinv
  · next hc =>
    have hcf : st.to_remove.contains item = false := by
      cases hcv : st.to_remove.contains item with
      | false => rfl
      | true => exact absurd hcv hc
    split at h
    · next n cs heq =>
      split at h
      · cases h
      · next st2 hp =>
        cases h
        have hpres := processChildren_inv _ st st2 hinv hp
        exact ⟨hpres.1.1, fun t ht =>
          contains_cons_of_contains (hpres.1.2 t ht)⟩
    · next n heq =>
      cases h
      exact DInv_snoc hinv rfl hcf
    · cases h
      exact ⟨hinv.1, fun t ht => contains_cons_of_contains (hinv.2 t ht)⟩

theorem discoverLoop_inv {fs : List FSEntry} :
    ∀ (items : List (List String)) (st st' : DState), DInv st →
    discoverLoop fs items st = .ok st' → DInv st' := by
  intro items
  induction items with
  | nil =>
    intro st st' hinv h
    rw [discoverLoop] at h
    cases h
    exact hinv
  | cons it rest ih =>
    intro st st' hinv h
    rw [discoverLoop] at h
    rcases hs : discover_step fs st it with e | st2
    · rw [hs] at h; cases h
    · rw [hs] at h
      exact ih st2 st' (discover_step_inv hinv hs) h

/-- C9 claim: for every input list under the to-remove key, including lists
repeating a path or listing a path both on its own and inside a listed
directory, MedusaPreingestCuration.discover_task_metadata emits each
filesystem path at most once in the returned task list, thanks to the
to_remove set. -/
theorem medusa_discover_dedup (fs : List FSEntry)
    (items : List (List String)) (tasks : List TaskArgs)
    (h : medusa_discover_task_metadata fs items = .ok tasks) :
    (tasks.map TaskArgs.path).Nodup := by
  unfold medusa_discover_task_metadata at h
  rcases hl : discoverLoop fs items ⟨[], []⟩ with e | st
  · rw [hl] at h; cases h
  · rw [hl] at h
    cases h
    exact (discoverLoop_inv items ⟨[], []⟩ st
      ⟨List.nodup_nil, fun t ht => absurd ht (List.not_mem_nil t)⟩ hl).1

/-- C9 witness: the input repeats the directory a and also lists the file
a/b that the expansion of a already covers; each path still appears once. -/
theorem medusa_discover_dedup_witness :
    (([⟨"file", ["a", "b"]⟩, ⟨"directory", ["a"]⟩] : List TaskArgs).map
      TaskArgs.path).Nodup :=
  medusa_discover_dedup [FSEntry.dir "a" [FSEntry.file "b"]]
    [["a"], ["a"], ["a", "b"]]
    [⟨"file", ["a", "b"]⟩, ⟨"directory", ["a"]⟩]
    (by simp [medusa_discover_task_metadata, discoverLoop, discover_step,
      processChildren, build_task, resolveForest, removalDir,
      removalChildren, filesOf, entryName])

/-! ## Checksum result grouping
    CreateChecksumWorkflow.sort_results and completion_task from
    src/speedwagon_uiucprescon/workflow_make_checksum.py, with
    MakeChecksumTask and MakeCheckSumReportTask from
    src/speedwagon_uiucprescon/tasks/validation.py. -/

structure MakeChecksumResult where
  source_filename : String
  checksum_hash : String
  checksum_file : String
deriving DecidableEq, Repr

/-- The comparison used by sorted(results, key=sort_func): the string order
on the checksum_file field. -/
def checksumFileLe (a b : MakeChecksumResult) : Bool :=
  a.checksum_file ≤ b.checksum_file

/-- itertools.groupby over the checksum_file key: maximal consecutive runs
with an equal key, each yielded with that key. -/
def groupRuns : List MakeChecksumResult →
    List (String × List MakeChecksumResult)
  | [] => []
  | r :: rest =>
      (r.checksum_file,
        r :: rest.takeWhile (fun x => x.checksum_file == r.checksum_file)) ::
      groupRuns (rest.dropWhile (fun x => x.checksum_file == r.checksum_file))
termination_by l => l.length
decreasing_by
  simp only [List.length_cons]
  have := (List.dropWhile_sublist
    (fun x => x.checksum_file == r.checksum_file) (l := rest)).length_le
  omega

/-- The body of the groupby loop writing into the defaultdict: each element
of the run is appended to new_results at the run key, which either extends
an existing entry (insertion order kept) or adds a fresh one at the end. -/
def dictAppend (d : List (String × List MakeChecksumResult)) (k : String)
    (items : List MakeChecksumResult) :
    List (String × List MakeChecksumResult) :=
  if d.any (fun e => e.1 == k) then
    d.map (fun e => if e.1 == k then (e.1, e.2 ++ items) else e)
  else
    d ++ [(k, items)]

/-- CreateChecksumWorkflow.sort_results: sort by the checksum_file key, group
consecutively, and accumulate the groups into the (insertion-ordered)
dictionary. -/
def sort_results (results : List MakeChecksumResult) :
    List (String × List MakeChecksumResult) :=
  (groupRuns (results.mergeSort checksumFileLe)).foldl
    (fun d kg => dictAppend d kg.1 kg.2) []

structure MakeCheckSumReportTask where
  output_filename : String
  checksum_calculations : List MakeChecksumResult
deriving DecidableEq, Repr

/-- CreateChecksumWorkflow.completion_task: one MakeCheckSumReportTask per
entry of sort_results. -/
def completion_task (results : List MakeChecksumResult) :
    List MakeCheckSumReportTask :=
  (sort_results results).map (fun g => ⟨g.1, g.2⟩)

/-- MakeCheckSumReportTask.work: the report receives one (filename, hash)
entry per checksum calculation, in order. -/
def reportEntries (t : MakeCheckSumReportTask) : List (String × String) :=
  t.checksum_calculations.map (fun i => (i.source_filename, i.checksum_hash))

/-- The first element surviving dropWhile falsifies the predicate. -/
theorem dropWhile_head_not {α : Type} {p : α → Bool} :
    ∀ (l : List α) {x : α} {xs : List α}, l.dropWhile p = x :: xs →
    p x = false := by
  intro l
  induction l with
  | nil => intro x xs h; simp [List.dropWhile] at h
  | cons a t ih =>
    intro x xs h
    rw [List.dropWhile_cons] at h
    by_cases hpa : p a = true
    · rw [if_pos hpa] at h
      exact ih h
    · rw [if_neg hpa] at h
      injection h with h1 _
      subst h1
      exact Bool.not_eq_true _ ▸ hpa

/-- In a run-sorted list, once the leading run of the head key is dropped,
no later element carries the head key again. -/
theorem dropWhile_run_ne {r : MakeChecksumResult}
    {rest : List MakeChecksumResult}
    (hs : (r :: rest).Pairwise (fun a b => checksumFileLe a b = true)) :
    ∀ x ∈ rest.dropWhile (fun y : MakeChecksumResult => y.checksum_file == r.checksum_file),
      ¬((x.checksum_file == r.checksum_file) = true) := by
  intro x hx
  cases hdw : rest.dropWhile (fun y : MakeChecksumResult => y.checksum_file == r.checksum_file) with
  | nil => rw [hdw] at hx; cases hx
  | cons h0 t =>
    rw [hdw] at hx
    have hph0 : (h0.checksum_file == r.checksum_file) = false :=
      dropWhile_head_not rest hdw
    have hsubrest : ∀ y ∈ h0 :: t, y ∈ rest := fun y hy =>
      (List.dropWhile_sublist
        (fun y : MakeChecksumResult => y.checksum_file == r.checksum_file)).subset (hdw ▸ hy)
    have hr_all := (List.pairwise_cons.mp hs).1
    have hrest_pw := (List.pairwise_cons.mp hs).2
    have hsorted_others : (h0 :: t).Pairwise
        (fun a b => checksumFileLe a b = true) :=
      hdw ▸ List.Pairwise.sublist
        (List.dropWhile_sublist (fun y : MakeChecksumResult => y.checksum_file == r.checksum_file))
        hrest_pw
    rcases List.mem_cons.mp hx with rfl | hxt
    · intro hcontra
      rw [hcontra] at hph0
      cases hph0
    · intro hxr
      have hxr' : x.checksum_file = r.checksum_file := eq_of_beq hxr
      have h0_le_x := (List.pairwise_cons.mp hsorted_others).1 x hxt
      have r_le_h0 := hr_all h0 (hsubrest h0 (List.mem_cons_self _ _))
      simp only [checksumFileLe, decide_eq_true_eq] at h0_le_x r_le_h0
      have heq : h0.checksum_file = r.checksum_file :=
        le_antisymm (hxr' ▸ h0_le_x) r_le_h0
      rw [beq_iff_eq.mpr heq] at hph0
      cases hph0

/-- For a sorted result list, the groups with a given report key collapse to
nothing when the key never occurs, and to a single group carrying every
occurrence otherwise. -/
theorem groupRuns_filter_count (R : String)
    (l : List MakeChecksumResult)
    (hs : l.Pairwise (fun a b => checksumFileLe a b = true)) :
    ((groupRuns l).filter (fun g => g.1 == R)).map (fun g => g.2.length) =
      (if l.countP (fun r => r.checksum_file == R) = 0 then []
       else [l.countP (fun r => r.checksum_file == R)]) := by
  match l with
  | [] => simp [groupRuns]
  | r :: rest =>
    rw [groupRuns]
    have hrest_pw := (List.pairwise_cons.mp hs).2
    have hsorted_others := List.Pairwise.sublist
      (List.dropWhile_sublist (fun y : MakeChecksumResult => y.checksum_file == r.checksum_file))
      hrest_pw
    have hne_others := dropWhile_run_ne hs
    have hrun_eq : ∀ x ∈ rest.takeWhile
        (fun y : MakeChecksumResult => y.checksum_file == r.checksum_file),
        x.checksum_file = r.checksum_file := fun x hx =>
      eq_of_beq (List.mem_takeWhile_imp
        (p := fun y : MakeChecksumResult =>
          y.checksum_file == r.checksum_file) (l := rest) hx)
    have ih := groupRuns_filter_count R
      (rest.dropWhile (fun y : MakeChecksumResult => y.checksum_file == r.checksum_file))
      hsorted_others
    have hsplit : rest.countP (fun x => x.checksum_file == R) =
        (rest.takeWhile
          (fun y : MakeChecksumResult => y.checksum_file == r.checksum_file)).countP
            (fun x => x.checksum_file == R) +
        (rest.dropWhile
          (fun y : MakeChecksumResult => y.checksum_file == r.checksum_file)).countP
            (fun x => x.checksum_file == R) := by
      rw [← List.countP_append, List.takeWhile_append_dropWhile]
    by_cases hbr : (r.checksum_file == R) = true
    · have hrR : r.checksum_file = R := eq_of_beq hbr
      have hcd : (rest.dropWhile
          (fun y : MakeChecksumResult => y.checksum_file == r.checksum_file)).countP
            (fun x => x.checksum_file == R) = 0 := by
        apply List.countP_eq_zero.mpr
        intro x hx hq
        exact hne_others x hx (by rw [hrR]; exact hq)
      have hct : (rest.takeWhile
          (fun y : MakeChecksumResult => y.checksum_file == r.checksum_file)).countP
            (fun x => x.checksum_file == R) =
          (rest.takeWhile
            (fun y : MakeChecksumResult => y.checksum_file == r.checksum_file)).length := by
        apply List.countP_eq_length.mpr
        intro x hx
        exact beq_iff_eq.mpr (hrun_eq x hx ▸ hrR)
      rw [List.filter_cons, if_pos (by simpa using hbr)]
      rw [List.map_cons, ih, hcd]
      rw [List.countP_cons, hsplit, hcd, hct, if_pos hbr]
      simp
    · have hct : (rest.takeWhile
          (fun y : MakeChecksumResult => y.checksum_file == r.checksum_file)).countP
            (fun x => x.checksum_file == R) = 0 := by
        apply List.countP_eq_zero.mpr
        intro x hx hq
        exact hbr (beq_iff_eq.mpr ((hrun_eq x hx) ▸ eq_of_beq hq))
      rw [List.filter_cons, if_neg (by simpa using hbr)]
      rw [ih]
      rw [List.countP_cons, hsplit, hct, if_neg hbr]
      simp
termination_by l.length
decreasing_by
  simp only [List.length_cons]
  have := (List.dropWhile_sublist
    (fun y : MakeChecksumResult => y.checksum_file == r.checksum_file) (l := rest)).length_le
  omega

/-- Every group key of groupRuns is the report key of some member of the
input. -/
theorem mem_keys_groupRuns (l : List MakeChecksumResult) {k : String}
    (h : k ∈ (groupRuns l).map Prod.fst) : ∃ x ∈ l, x.checksum_file = k := by
  match l with
  | [] => simp [groupRuns] at h
  | r :: rest =>
    rw [groupRuns, List.map_cons] at h
    rcases List.mem_cons.mp h with heq | htail
    · exact ⟨r, List.mem_cons_self _ _, heq.symm⟩
    · obtain ⟨x, hx, hxk⟩ := mem_keys_groupRuns
        (rest.dropWhile (fun y : MakeChecksumResult => y.checksum_file == r.checksum_file)) htail
      exact ⟨x, List.mem_cons_of_mem r ((List.dropWhile_sublist
        (fun y : MakeChecksumResult => y.checksum_file == r.checksum_file)).subset hx), hxk⟩
termination_by l.length
decreasing_by
  simp only [List.length_cons]
  have := (List.dropWhile_sublist
    (fun y : MakeChecksumResult => y.checksum_file == r.checksum_file) (l := rest)).length_le
  omega

/-- For a sorted input the group keys are pairwise distinct. -/
theorem groupRuns_keys_nodup (l : List MakeChecksumResult)
    (hs : l.Pairwise (fun a b => checksumFileLe a b = true)) :
    ((groupRuns l).map Prod.fst).Nodup := by
  match l with
  | [] => simp [groupRuns]
  | r :: rest =>
    rw [groupRuns, List.map_cons]
    apply List.nodup_cons.mpr
    constructor
    · intro hmem
      obtain ⟨x, hx, hxk⟩ := mem_keys_groupRuns _ hmem
      exact dropWhile_run_ne hs x hx (beq_iff_eq.mpr hxk)
    · exact groupRuns_keys_nodup _ (List.Pairwise.sublist
        (List.dropWhile_sublist (fun y : MakeChecksumResult => y.checksum_file == r.checksum_file))
        (List.pairwise_cons.mp hs).2)
termination_by l.length
decreasing_by
  simp only [List.length_cons]
  have := (List.dropWhile_sublist
    (fun y : MakeChecksumResult => y.checksum_file == r.checksum_file) (l := rest)).length_le
  omega

/-- Folding runs with pairwise distinct keys into the defaultdict just
concatenates them. -/
theorem dictFold_eq :
    ∀ (runs acc : List (String × List MakeChecksumResult)),
    ((acc ++ runs).map Prod.fst).Nodup →
    runs.foldl (fun d kg => dictAppend d kg.1 kg.2) acc = acc ++ runs := by
  intro runs
  induction runs with
  | nil =>
    intro acc _
    simp
  | cons kg rest ih =>
    intro acc h
    obtain ⟨k, g⟩ := kg
    simp only [List.foldl_cons]
    have hknotin : ∀ e ∈ acc, ¬((e.1 == k) = true) := by
      intro e he hek
      rw [List.map_append, List.nodup_append] at h
      have h1 : e.1 ∈ acc.map Prod.fst := List.mem_map.mpr ⟨e, he, rfl⟩
      have h2 : e.1 ∉ ((k, g) :: rest).map Prod.fst := h.2.2 h1
      exact h2 (List.mem_cons.mpr (Or.inl (eq_of_beq hek)))
    have hany : acc.any (fun e => e.1 == k) = false :=
      List.any_eq_false.mpr hknotin
    have happ : dictAppend acc k g = acc ++ [(k, g)] := by
      unfold dictAppend
      rw [hany]
      simp
    rw [happ]
    rw [ih (acc ++ [(k, g)]) (by simpa [List.append_assoc] using h)]
    simp

/-- C2 claim: grouping per-file checksum results by their destination report
path puts all N results tagged with a report path into exactly one group of
size N, so completion_task creates exactly one MakeCheckSumReportTask whose
generated report holds exactly N entries; a report path with zero tagged
results gets no group and hence no report task and no report file. -/
theorem checksum_report_grouping (results : List MakeChecksumResult)
    (R : String) :
    ((completion_task results).filter
        (fun t => t.output_filename == R)).map
      (fun t => (reportEntries t).length) =
      (if results.countP (fun r => r.checksum_file == R) = 0 then []
       else [results.countP (fun r => r.checksum_file == R)]) := by
  have hsorted : (results.mergeSort checksumFileLe).Pairwise
      (fun a b => checksumFileLe a b = true) := by
    exact @List.sorted_mergeSort MakeChecksumResult checksumFileLe
      (fun a b c hab hbc => by
        simp only [checksumFileLe, decide_eq_true_eq] at *
        exact le_trans hab hbc)
      (fun a b => by
        simp only [checksumFileLe, Bool.or_eq_true, decide_eq_true_eq]
        exact le_total _ _)
      results
  have hkeys := groupRuns_keys_nodup _ hsorted
  have hsr : sort_results results =
      groupRuns (results.mergeSort checksumFileLe) := by
    unfold sort_results
    have := dictFold_eq (groupRuns (results.mergeSort checksumFileLe)) []
      (by simpa using hkeys)
    simpa using this
  unfold completion_task
  rw [hsr, List.filter_map, List.map_map]
  have hgoal := groupRuns_filter_count R (results.mergeSort checksumFileLe)
    hsorted
  have hcnt := (List.mergeSort_perm results checksumFileLe).countP_eq
    (fun r => r.checksum_file == R)
  rw [hcnt] at hgoal
  rw [← hgoal]
  apply List.map_congr_left
  intro g _
  simp [reportEntries]

/-! ## MARC XML enhancement
    EnhancementTask.redraw_tree and MarcEnhancement955Task from
    src/speedwagon_uiucprescon/workflow_get_marc.py.  A parsed MARC record
    tree is a root element with one level of child elements (datafields,
    controlfields, leader), matching the shape of the records the workflow
    parses: the datafields found by findall(".//marc:datafield") are exactly
    the direct children named datafield, which is also what root.remove
    requires.  An element carries its local name, its attribute list, and
    its subfields as (code, text) pairs. -/

structure XElem where
  name : String
  attribs : List (String × String)
  content : List (String × String)
deriving DecidableEq, Repr

structure XRoot where
  name : String
  children : List XElem
deriving DecidableEq, Repr

def isDatafield (e : XElem) : Bool :=
  e.name == "datafield"

def attribTag (e : XElem) : Option String :=
  e.attribs.lookup "tag"

/-- The sort key int(x.attrib["tag"]) of redraw_tree, as the decimal value
of the tag attribute.  int() raises for a missing or non-numeric tag, so the
theorems restrict to trees whose datafield tags satisfy hasNumericTag. -/
def tagKey (e : XElem) : Nat :=
  digitsToNat ((attribTag e).getD "").data

def hasNumericTag (e : XElem) : Bool :=
  match attribTag e with
  | none => false
  | some s => (!s.data.isEmpty) && s.data.all Char.isDigit

/-- EnhancementTask.redraw_tree: every datafield is removed from the root
and collected after the new datafields; the combined list is re-appended in
stable sorted order of the numeric tag, after the untouched remaining
children. -/
def redraw_tree (tree : XRoot) (new_datafields : List XElem) : XRoot :=
  let datafields := tree.children.filter isDatafield
  let rest := tree.children.filter (fun e => !(isDatafield e))
  let fields := new_datafields ++ datafields
  { tree with
    children := rest ++ fields.mergeSort (fun a b => tagKey a ≤ tagKey b) }

/-- MarcEnhancement955Task.create_new_955_element. -/
def create_new_955_element (added_value : String) : XElem :=
  { name := "datafield",
    attribs := [("tag", "955"), ("ind1", " "), ("ind2", " ")],
    content := [("b", added_value)] }

/-- MarcEnhancement955Task.enhance_tree_with_955. -/
def enhance_tree_with_955 (added_value : String) (tree : XRoot) : XRoot :=
  redraw_tree tree [create_new_955_element added_value]

/-- C3 claim: enhancing any parsed MARC record tree (with numeric datafield
tags) with a 955 field preserves every pre-existing datafield (the
datafields of the result are a permutation of the new 955 element together
with the old datafields), leaves exactly one new 955 datafield (the count of
955-tagged datafields grows by exactly one), and orders all datafields by
ascending numeric tag. -/
theorem enhance_tree_with_955_spec (v : String) (tree : XRoot)
    (htags : ∀ e ∈ tree.children, isDatafield e = true →
      hasNumericTag e = true) :
    ((enhance_tree_with_955 v tree).children.filter isDatafield).Perm
      (create_new_955_element v :: tree.children.filter isDatafield) ∧
    (enhance_tree_with_955 v tree).children.countP
        (fun e => isDatafield e && (attribTag e == some "955")) =
      tree.children.countP
        (fun e => isDatafield e && (attribTag e == some "955")) + 1 ∧
    ((enhance_tree_with_955 v tree).children.filter isDatafield).Pairwise
      (fun a b => tagKey a ≤ tagKey b) := by
  have hchildren : (enhance_tree_with_955 v tree).children =
      tree.children.filter (fun e => !(isDatafield e)) ++
        ((create_new_955_element v :: tree.children.filter isDatafield).mergeSort
          (fun a b => tagKey a ≤ tagKey b)) := rfl
  have hfields_df : ∀ e ∈ (create_new_955_element v ::
      tree.children.filter isDatafield), isDatafield e = true := by
    intro e he
    rcases List.mem_cons.mp he with rfl | hmem
    · rfl
    · exact (List.mem_filter.mp hmem).2
  have hfilter_result : (enhance_tree_with_955 v tree).children.filter
      isDatafield =
      ((create_new_955_element v :: tree.children.filter isDatafield).mergeSort
        (fun a b => tagKey a ≤ tagKey b)) := by
    rw [hchildren, List.filter_append]
    rw [List.filter_filter]
    have h1 : (tree.children.filter
        (fun a => isDatafield a && !(isDatafield a))) = [] := by
      apply List.filter_eq_nil_iff.mpr
      intro a _
      cases isDatafield a <;> simp
    rw [h1, List.nil_append]
    apply List.filter_eq_self.mpr
    intro a ha
    exact hfields_df a (List.mem_mergeSort.mp ha)
  have hperm : ((create_new_955_element v ::
      tree.children.filter isDatafield).mergeSort
        (fun a b => tagKey a ≤ tagKey b)).Perm
      (create_new_955_element v :: tree.children.filter isDatafield) :=
    List.mergeSort_perm _ _
  refine ⟨hfilter_result ▸ hperm, ?_, ?_⟩
  · rw [hchildren, List.countP_append]
    have h0 : (tree.children.filter (fun e => !(isDatafield e))).countP
        (fun e => isDatafield e && (attribTag e == some "955")) = 0 := by
      apply List.countP_eq_zero.mpr
      intro a ha hq
      have hnd := (List.mem_filter.mp ha).2
      rw [Bool.and_eq_true] at hq
      rw [hq.1] at hnd
      cases hnd
    rw [h0, Nat.zero_add]
    rw [hperm.countP_eq]
    rw [List.countP_cons]
    have hq955 : (isDatafield (create_new_955_element v) &&
        (attribTag (create_new_955_element v) == some "955")) = true := rfl
    rw [if_pos hq955]
    rw [List.countP_filter]
    congr 1
    apply List.countP_congr
    intro a _
    cases h : isDatafield a <;> simp [h]
  · rw [hfilter_result]
    have hpw := @List.sorted_mergeSort XElem
      (fun a b : XElem => tagKey a ≤ tagKey b)
      (fun a b c hab hbc => by
        simp only [decide_eq_true_eq] at *
        exact le_trans hab hbc)
      (fun a b => by
        simp only [Bool.or_eq_true, decide_eq_true_eq]
        exact Nat.le_total _ _)
      (create_new_955_element v :: tree.children.filter isDatafield)
    exact hpw.imp (fun h => by simpa using h)

/-- C3 witness: a record with a leader, a 959 datafield and a 035 datafield
gains exactly one 955 datafield and ends up tag-sorted. -/
theorem enhance_tree_with_955_spec_witness :
    ((enhance_tree_with_955 "b89-20 v.1"
      { name := "record",
        children :=
          [{ name := "leader", attribs := [], content := [] },
           { name := "datafield",
             attribs := [("tag", "959"), ("ind1", " "), ("ind2", " ")],
             content := [("a", "(UIUdb)195967")] },
           { name := "datafield",
             attribs := [("tag", "035"), ("ind1", " "), ("ind2", " ")],
             content := [("a", "(OCoLC)190")] }] }).children.countP
        (fun e => isDatafield e && (attribTag e == some "955"))) =
      ([({ name := "leader", attribs := [], content := [] } : XElem),
        { name := "datafield",
          attribs := [("tag", "959"), ("ind1", " "), ("ind2", " ")],
          content := [("a", "(UIUdb)195967")] },
        { name := "datafield",
          attribs := [("tag", "035"), ("ind1", " "), ("ind2", " ")],
          content := [("a", "(OCoLC)190")] }].countP
        (fun e => isDatafield e && (attribTag e == some "955"))) + 1 :=
  (enhance_tree_with_955_spec "b89-20 v.1"
    { name := "record",
      children :=
        [{ name := "leader", attribs := [], content := [] },
         { name := "datafield",
           attribs := [("tag", "959"), ("ind1", " "), ("ind2", " ")],
           content := [("a", "(UIUdb)195967")] },
         { name := "datafield",
           attribs := [("tag", "035"), ("ind1", " "), ("ind2", " ")],
           content := [("a", "(OCoLC)190")] }] }
    (by decide)).2.1

/-- C8 claim: CaseSensitiveComparison.compare("abc", "ABC") is False while
CaseInsensitiveComparison.compare("abc", "ABC") is True, and in general the
sensitive comparison is string equality while the insensitive comparison is
equality of the lowercased strings. -/
theorem case_comparison_spec :
    caseSensitiveCompare "abc" "ABC" = false ∧
    caseInsensitiveCompare "abc" "ABC" = true ∧
    (∀ a b : String, caseSensitiveCompare a b = (a == b)) ∧
    (∀ a b : String, caseInsensitiveCompare a b = (pyLower a == pyLower b)) := by
  refine ⟨by decide, by decide, fun a b => rfl, fun a b => rfl⟩

/-- C7 claim: when the computed MD5 differs from the expected hash under both
the case-sensitive and the case-insensitive comparison, both
ValidateChecksumTask.work and ChecksumTask.work record a result whose valid
field is False and still return True instead of raising, leaving the rest of
the batch unaffected. -/
theorem checksum_mismatch_captured
    (file_name file_path expected_hash source_report actual_md5 : String)
    (hsens : caseSensitiveCompare actual_md5 expected_hash = false)
    (hinsens : caseInsensitiveCompare actual_md5 expected_hash = false) :
    (validateChecksumTaskWork file_name file_path expected_hash source_report
        actual_md5).1.valid = false ∧
    (validateChecksumTaskWork file_name file_path expected_hash source_report
        actual_md5).2 = true ∧
    (checksumTaskWork file_name source_report expected_hash file_path
        actual_md5).1.valid = false ∧
    (checksumTaskWork file_name source_report expected_hash file_path
        actual_md5).2 = true := by
  simp [validateChecksumTaskWork, checksumTaskWork, hsens, hinsens]

/-- C7 witness: a concrete mismatching pair of hashes exercises the theorem. -/
theorem checksum_mismatch_captured_witness :
    (validateChecksumTaskWork "f.tif" "pkg" "aaa" "checksum.md5"
        "bbb").1.valid = false := by
  exact (checksum_mismatch_captured "f.tif" "pkg" "aaa" "checksum.md5" "bbb"
    (by decide) (by decide)).1
